import Mathlib

/-!
Shallow embedding of `src/backend/distributed/transaction/worker_transaction.c`
(Citus worker-transaction coordination): the transaction-connection registry
(`OpenWorkerTransactions`), the command dispatcher
(`SendCommandToWorkersInOrder`, `SendCommandToWorkersInParallel`) and the
commit-protocol orchestrator (`CompleteWorkerTransactions`).

External collaborators (libpq, the connection cache, the worker manager, the
two-phase helper of `multi_transaction.c`) are modelled as an `Env` of
deterministic oracles; every remote interaction the C code performs is logged
in an event trace so that ordering and fail-fast properties can be stated.
`ereport(ERROR)` (a non-local exit) is modelled by `Except`: an error return
aborts the rest of the C function, exactly as the longjmp does, and in
particular skips any state mutation that textually follows the failing call.
-/

namespace WorkerTransaction

/-- A libpq connection (`PGconn *`), identified abstractly. -/
abbrev PGconn := Nat

/-- Structure `WorkerNode` as used by `OpenWorkerTransactions`: `workerName`/`workerPort`. -/
structure WorkerNode where
  workerName : String
  workerPort : Nat
deriving DecidableEq, Repr

/-- Remote transaction state of a `TransactionConnection`
(`multi_transaction.h`); `worker_transaction.c` only ever stores
`TRANSACTION_STATE_OPEN`. -/
inductive TransactionState where
  | INVALID
  | OPEN
  | PREPARED
  | CLOSED
deriving DecidableEq, Repr

/-- Structure `TransactionConnection` (`multi_transaction.h`) as populated at
`worker_transaction.c:195`. -/
structure TransactionConnection where
  connectionId : Nat
  transactionState : TransactionState
  connection : PGconn
deriving DecidableEq, Repr

/-- The remote interactions the module performs, in order.
`ExecCmd` is `PQexec`, `SendQuery` is `PQsendQuery`, `GetResult` is
`PQgetResult`; `CloseConns` is `CloseConnections`; `RegisterCallback` is
`RegisterXactCallback`; `Prepare`/`Commit`/`Abort` are the calls into the
external two-phase helper (`PrepareRemoteTransactions` etc.). -/
inductive Event where
  | ExecCmd (conn : PGconn) (cmd : String)
  | SendQuery (conn : PGconn) (cmd : String)
  | GetResult (conn : PGconn)
  | CloseConns (conns : List TransactionConnection)
  | RegisterCallback
  | Prepare (conns : List TransactionConnection)
  | Commit (conns : List TransactionConnection)
  | Abort (conns : List TransactionConnection)
deriving DecidableEq, Repr

/-- The `ereport(ERROR)` calls of `worker_transaction.c`, each carrying the
node identity the message names.  `connectionOpenFailed` is
"could not open connection to %s:%d", `transactionStartFailed` is
"could not start transaction on %s:%d", `metadataChangeSendFailed` is
"failed to send metadata change to %s:%s" and `metadataChangeApplyFailed` is
"failed to apply metadata change on %s:%s". -/
inductive CError where
  | connectionOpenFailed (nodeName : String) (nodePort : Nat)
  | transactionStartFailed (nodeName : String) (nodePort : Nat)
  | metadataChangeSendFailed (host : String) (port : String)
  | metadataChangeApplyFailed (host : String) (port : String)
deriving DecidableEq, Repr

/-- Configuration values of `MultiShardCommitProtocol` (`COMMIT_PROTOCOL_1PC`,
`COMMIT_PROTOCOL_2PC`). -/
inductive CommitProtocol where
  | COMMIT_PROTOCOL_1PC
  | COMMIT_PROTOCOL_2PC
deriving DecidableEq, Repr

/-- The `XactEvent`s `CompleteWorkerTransactions` distinguishes; every other
PostgreSQL lifecycle event falls into the final `else` and is collapsed to
`OTHER`. -/
inductive XactEvent where
  | XACT_EVENT_PRE_COMMIT
  | XACT_EVENT_COMMIT
  | XACT_EVENT_ABORT
  | OTHER
deriving DecidableEq, Repr

/-- The external world: the Topology Provider (`WorkerNodeList`), the
Connection Provider (`GetOrEstablishConnection`, `ConnectionGetOptionValue`),
the libpq result oracles, and the configured commit protocol.  All are
deterministic functions, reflecting a fixed behaviour of the outside world
for one call. -/
structure Env where
  workerNodeList : List WorkerNode
  getOrEstablishConnection : String → Nat → Option PGconn
  /-- Whether `PQresultStatus (PQexec conn cmd) == PGRES_COMMAND_OK` -/
  execStatus : PGconn → String → Bool
  /-- Whether `PQsendQuery conn cmd != 0` -/
  sendQueryOk : PGconn → String → Bool
  /-- Whether `PQresultStatus (PQgetResult conn) == PGRES_COMMAND_OK` for the
  command previously submitted with `PQsendQuery` -/
  getResultOk : PGconn → String → Bool
  /-- Value of `ConnectionGetOptionValue conn "host"` -/
  connHost : PGconn → String
  /-- Value of `ConnectionGetOptionValue conn "port"` -/
  connPort : PGconn → String
  multiShardCommitProtocol : CommitProtocol

/-- The module's static state: `workerConnectionList` and
`isXactCallbackRegistered` (`worker_transaction.c:35-36`). -/
structure XactState where
  workerConnectionList : List TransactionConnection
  isXactCallbackRegistered : Bool
deriving DecidableEq, Repr

/-- The `TransactionConnection` built for a freshly opened connection
(`worker_transaction.c:195-199`). -/
def beginHandle (conn : PGconn) : TransactionConnection :=
  { connectionId := 0
    transactionState := TransactionState.OPEN
    connection := conn }

/-- The `foreach(workerNodeCell, workerList)` loop of
`OpenWorkerTransactions` (`worker_transaction.c:166-202`): for each worker,
obtain a connection (absent connection raises
"could not open connection"), issue `BEGIN` via `PQexec` (a non-OK status
raises "could not start transaction"), and append the fresh handle.
Returns the accumulated handle list and the trace of remote interactions;
an error carries the trace up to and including the failing interaction. -/
def openLoop (env : Env) :
    List WorkerNode → Except CError (List TransactionConnection) × List Event
  | [] => (Except.ok [], [])
  | w :: ws =>
    match env.getOrEstablishConnection w.workerName w.workerPort with
    | none => (Except.error (CError.connectionOpenFailed w.workerName w.workerPort), [])
    | some conn =>
      if env.execStatus conn "BEGIN" then
        match openLoop env ws with
        | (Except.ok rest, tr) =>
            (Except.ok (beginHandle conn :: rest), Event.ExecCmd conn "BEGIN" :: tr)
        | (Except.error e, tr) =>
            (Except.error e, Event.ExecCmd conn "BEGIN" :: tr)
      else
        (Except.error (CError.transactionStartFailed w.workerName w.workerPort),
         [Event.ExecCmd conn "BEGIN"])

/-- Function `OpenWorkerTransactions` (`worker_transaction.c:140-215`).
If the current worker count differs from the cached connection count, the
cached connections are closed and the cache reset (lines 151-155); a
remaining non-empty cache is returned unchanged (lines 158-161); otherwise
every worker is opened in topology order via `openLoop`, the xact callback
is registered if not yet registered (lines 206-210), and the cache is set to
the new list (line 212).  An `ereport(ERROR)` inside the loop skips the
registration and the cache assignment, exactly as the C longjmp does. -/
def OpenWorkerTransactions (env : Env) (s : XactState) :
    Except CError (List TransactionConnection) × List Event × XactState :=
  let workerCount := env.workerNodeList.length
  let workerConnectionCount := s.workerConnectionList.length
  let s1 : XactState :=
    if workerCount ≠ workerConnectionCount then
      { s with workerConnectionList := [] }
    else s
  let tr0 : List Event :=
    if workerCount ≠ workerConnectionCount then
      [Event.CloseConns s.workerConnectionList]
    else []
  if s1.workerConnectionList = [] then
    match openLoop env env.workerNodeList with
    | (Except.error e, tr) => (Except.error e, tr0 ++ tr, s1)
    | (Except.ok conns, tr) =>
      let trReg : List Event :=
        if s1.isXactCallbackRegistered then [] else [Event.RegisterCallback]
      (Except.ok conns, tr0 ++ tr ++ trReg,
       { workerConnectionList := conns, isXactCallbackRegistered := true })
  else
    (Except.ok s1.workerConnectionList, tr0, s1)

/-- The dispatch loop of `SendCommandToWorkersInOrder`
(`worker_transaction.c:51-69`): `PQexec` the command on each handle in list
order; at the first non-OK result, raise "failed to send metadata change"
naming the connection's host and port — later handles are never reached. -/
def sendOrderedLoop (env : Env) (command : String) :
    List TransactionConnection → Except CError Unit × List Event
  | [] => (Except.ok (), [])
  | tc :: rest =>
    if env.execStatus tc.connection command then
      match sendOrderedLoop env command rest with
      | (r, tr) => (r, Event.ExecCmd tc.connection command :: tr)
    else
      (Except.error (CError.metadataChangeSendFailed
          (env.connHost tc.connection) (env.connPort tc.connection)),
       [Event.ExecCmd tc.connection command])

/-- Function `SendCommandToWorkersInOrder` (`worker_transaction.c:44-70`): open (or
reuse) the worker transactions, then run the ordered dispatch loop. -/
def SendCommandToWorkersInOrder (env : Env) (command : String) (s : XactState) :
    Except CError Unit × List Event × XactState :=
  match OpenWorkerTransactions env s with
  | (Except.error e, tr, s') => (Except.error e, tr, s')
  | (Except.ok conns, tr, s') =>
    match sendOrderedLoop env command conns with
    | (r, tr2) => (r, tr ++ tr2, s')

/-- The submit loop of `SendCommandToWorkersInParallel`
(`worker_transaction.c:85-103`): `PQsendQuery` on each handle without
waiting; a zero return raises "failed to send metadata change" immediately. -/
def submitLoop (env : Env) (command : String) :
    List TransactionConnection → Except CError Unit × List Event
  | [] => (Except.ok (), [])
  | tc :: rest =>
    if env.sendQueryOk tc.connection command then
      match submitLoop env command rest with
      | (r, tr) => (r, Event.SendQuery tc.connection command :: tr)
    else
      (Except.error (CError.metadataChangeSendFailed
          (env.connHost tc.connection) (env.connPort tc.connection)),
       [Event.SendQuery tc.connection command])

/-- The drain loop of `SendCommandToWorkersInParallel`
(`worker_transaction.c:105-129`): `PQgetResult` from each handle in
submission order; a non-OK result raises "failed to apply metadata change";
on success one extra `PQgetResult` clears the trailing NULL result. -/
def drainLoop (env : Env) (command : String) :
    List TransactionConnection → Except CError Unit × List Event
  | [] => (Except.ok (), [])
  | tc :: rest =>
    if env.getResultOk tc.connection command then
      match drainLoop env command rest with
      | (r, tr) =>
          (r, Event.GetResult tc.connection :: Event.GetResult tc.connection :: tr)
    else
      (Except.error (CError.metadataChangeApplyFailed
          (env.connHost tc.connection) (env.connPort tc.connection)),
       [Event.GetResult tc.connection])

/-- Function `SendCommandToWorkersInParallel` (`worker_transaction.c:78-130`): open
(or reuse) the worker transactions, submit to every handle, then drain from
every handle in submission order; a submission failure aborts before any
drain. -/
def SendCommandToWorkersInParallel (env : Env) (command : String) (s : XactState) :
    Except CError Unit × List Event × XactState :=
  match OpenWorkerTransactions env s with
  | (Except.error e, tr, s') => (Except.error e, tr, s')
  | (Except.ok conns, tr, s') =>
    match submitLoop env command conns with
    | (Except.error e, tr1) => (Except.error e, tr ++ tr1, s')
    | (Except.ok _, tr1) =>
      match drainLoop env command conns with
      | (r, tr2) => (r, tr ++ tr1 ++ tr2, s')

/-- Function `CompleteWorkerTransactions` (`worker_transaction.c:222-274`): the xact
callback.  An empty `workerConnectionList` is a no-op; `PRE_COMMIT` calls
`PrepareRemoteTransactions` only under the two-phase protocol and returns
without clearing the list; `COMMIT` and `ABORT` call
`CommitRemoteTransactions`/`AbortRemoteTransactions` (best-effort, they do
not raise) and then unconditionally reset `workerConnectionList` to `NIL`;
any other event returns without touching the list. -/
def CompleteWorkerTransactions (env : Env) (event : XactEvent) (s : XactState) :
    List Event × XactState :=
  if s.workerConnectionList = [] then
    ([], s)
  else
    match event with
    | XactEvent.XACT_EVENT_PRE_COMMIT =>
      if env.multiShardCommitProtocol = CommitProtocol.COMMIT_PROTOCOL_2PC then
        ([Event.Prepare s.workerConnectionList], s)
      else
        ([], s)
    | XactEvent.XACT_EVENT_COMMIT =>
      ([Event.Commit s.workerConnectionList], { s with workerConnectionList := [] })
    | XactEvent.XACT_EVENT_ABORT =>
      ([Event.Abort s.workerConnectionList], { s with workerConnectionList := [] })
    | XactEvent.OTHER => ([], s)

/-! ### Helper lemmas about the population loop -/

/-- Worker `w` successfully opens in environment `env`: the Connection
Provider yields a channel and `BEGIN` succeeds on it. -/
def workerOpens (env : Env) (w : WorkerNode) : Prop :=
  ∃ c, env.getOrEstablishConnection w.workerName w.workerPort = some c ∧
    env.execStatus c "BEGIN" = true

/-- Handle `tc` is the one `openLoop` builds for worker `w`. -/
def opensTo (env : Env) (w : WorkerNode) (tc : TransactionConnection) : Prop :=
  env.getOrEstablishConnection w.workerName w.workerPort = some tc.connection ∧
  env.execStatus tc.connection "BEGIN" = true ∧
  tc = beginHandle tc.connection

theorem openLoop_ok_spec (env : Env) (ws : List WorkerNode)
    (l : List TransactionConnection) (tr : List Event)
    (h : openLoop env ws = (Except.ok l, tr)) :
    List.Forall₂ (opensTo env) ws l ∧
      tr = List.map (fun tc => Event.ExecCmd tc.connection "BEGIN") l := by
  induction ws generalizing l tr with
  | nil =>
    simp only [openLoop, Prod.mk.injEq, Except.ok.injEq] at h
    obtain ⟨rfl, rfl⟩ := h
    exact ⟨List.Forall₂.nil, rfl⟩
  | cons w ws ih =>
    simp only [openLoop] at h
    cases hc : env.getOrEstablishConnection w.workerName w.workerPort with
    | none => simp [hc] at h
    | some conn =>
      simp only [hc] at h
      by_cases hb : env.execStatus conn "BEGIN" = true
      · simp only [if_pos hb] at h
        cases hrec : openLoop env ws with
        | mk r tr' =>
          cases r with
          | ok rest =>
            simp only [hrec, Prod.mk.injEq, Except.ok.injEq] at h
            obtain ⟨rfl, rfl⟩ := h
            obtain ⟨hfa, rfl⟩ := ih rest tr' hrec
            refine ⟨List.Forall₂.cons ⟨hc, hb, rfl⟩ hfa, ?_⟩
            simp [beginHandle]
          | error e => simp [hrec] at h
      · simp [if_neg hb] at h

theorem openLoop_ok_length (env : Env) (ws : List WorkerNode)
    (l : List TransactionConnection) (tr : List Event)
    (h : openLoop env ws = (Except.ok l, tr)) : l.length = ws.length :=
  ((openLoop_ok_spec env ws l tr h).1.length_eq).symm

theorem openLoop_error_spec (env : Env) (ws : List WorkerNode)
    (e : CError) (tr : List Event)
    (h : openLoop env ws = (Except.error e, tr)) :
    ∃ ws₁ w ws₂, ws = ws₁ ++ w :: ws₂ ∧
      (∀ w' ∈ ws₁, workerOpens env w') ∧ ¬ workerOpens env w ∧
      (e = CError.connectionOpenFailed w.workerName w.workerPort ∨
       e = CError.transactionStartFailed w.workerName w.workerPort) := by
  induction ws generalizing e tr with
  | nil => exact absurd (congrArg Prod.fst h) (by simp [openLoop])
  | cons w ws ih =>
    simp only [openLoop] at h
    cases hc : env.getOrEstablishConnection w.workerName w.workerPort with
    | none =>
      simp only [hc, Prod.mk.injEq, Except.error.injEq] at h
      obtain ⟨rfl, -⟩ := h
      refine ⟨[], w, ws, rfl, by simp, ?_, Or.inl rfl⟩
      rintro ⟨c, hcc, -⟩
      rw [hc] at hcc; exact Option.noConfusion hcc
    | some conn =>
      simp only [hc] at h
      by_cases hb : env.execStatus conn "BEGIN" = true
      · simp only [if_pos hb] at h
        cases hrec : openLoop env ws with
        | mk r tr' =>
          cases r with
          | ok rest => simp [hrec] at h
          | error e' =>
            simp only [hrec, Prod.mk.injEq, Except.error.injEq] at h
            obtain ⟨rfl, -⟩ := h
            obtain ⟨ws₁, w', ws₂, rfl, hall, hfail, hname⟩ := ih e' tr' hrec
            exact ⟨w :: ws₁, w', ws₂, rfl,
              by
                intro x hx
                rcases List.mem_cons.mp hx with rfl | hx
                · exact ⟨conn, hc, hb⟩
                · exact hall x hx,
              hfail, hname⟩
      · simp only [if_neg hb, Prod.mk.injEq, Except.error.injEq] at h
        obtain ⟨rfl, -⟩ := h
        refine ⟨[], w, ws, rfl, by simp, ?_, Or.inr rfl⟩
        rintro ⟨c, hcc, hce⟩
        rw [hc] at hcc
        obtain rfl : conn = c := Option.some.inj hcc
        exact hb hce

/-! ### Case analysis of `OpenWorkerTransactions` -/

theorem open_cached (env : Env) (s : XactState)
    (hlen : env.workerNodeList.length = s.workerConnectionList.length)
    (hne : s.workerConnectionList ≠ []) :
    OpenWorkerTransactions env s = (Except.ok s.workerConnectionList, [], s) := by
  simp [OpenWorkerTransactions, hlen, hne]

theorem open_mismatch_error (env : Env) (s : XactState) (e : CError) (tr : List Event)
    (hmis : env.workerNodeList.length ≠ s.workerConnectionList.length)
    (h : openLoop env env.workerNodeList = (Except.error e, tr)) :
    OpenWorkerTransactions env s =
      (Except.error e, Event.CloseConns s.workerConnectionList :: tr,
       { s with workerConnectionList := [] }) := by
  simp [OpenWorkerTransactions, hmis, h]

theorem open_mismatch_ok (env : Env) (s : XactState)
    (conns : List TransactionConnection) (tr : List Event)
    (hmis : env.workerNodeList.length ≠ s.workerConnectionList.length)
    (h : openLoop env env.workerNodeList = (Except.ok conns, tr)) :
    OpenWorkerTransactions env s =
      (Except.ok conns,
       Event.CloseConns s.workerConnectionList ::
         (tr ++ if s.isXactCallbackRegistered then [] else [Event.RegisterCallback]),
       { workerConnectionList := conns, isXactCallbackRegistered := true }) := by
  simp [OpenWorkerTransactions, hmis, h]

theorem open_populate_error (env : Env) (s : XactState) (e : CError) (tr : List Event)
    (hlen : env.workerNodeList.length = s.workerConnectionList.length)
    (hemp : s.workerConnectionList = [])
    (h : openLoop env env.workerNodeList = (Except.error e, tr)) :
    OpenWorkerTransactions env s = (Except.error e, tr, s) := by
  simp [OpenWorkerTransactions, hlen, hemp, h]

theorem open_populate_ok (env : Env) (s : XactState)
    (conns : List TransactionConnection) (tr : List Event)
    (hlen : env.workerNodeList.length = s.workerConnectionList.length)
    (hemp : s.workerConnectionList = [])
    (h : openLoop env env.workerNodeList = (Except.ok conns, tr)) :
    OpenWorkerTransactions env s =
      (Except.ok conns,
       tr ++ (if s.isXactCallbackRegistered then [] else [Event.RegisterCallback]),
       { workerConnectionList := conns, isXactCallbackRegistered := true }) := by
  simp [OpenWorkerTransactions, hlen, hemp, h]

theorem open_error_state (env : Env) (s : XactState) (e : CError)
    (tr : List Event) (s' : XactState)
    (h : OpenWorkerTransactions env s = (Except.error e, tr, s')) :
    s'.workerConnectionList = [] ∧
      s'.isXactCallbackRegistered = s.isXactCallbackRegistered := by
  by_cases hmis : env.workerNodeList.length = s.workerConnectionList.length
  · by_cases hemp : s.workerConnectionList = []
    · cases hl : openLoop env env.workerNodeList with
      | mk r tr2 =>
        cases r with
        | ok conns => rw [open_populate_ok env s conns tr2 hmis hemp hl] at h; simp at h
        | error e2 =>
          rw [open_populate_error env s e2 tr2 hmis hemp hl] at h
          simp only [Prod.mk.injEq] at h
          obtain ⟨-, -, rfl⟩ := h
          exact ⟨hemp, rfl⟩
    · rw [open_cached env s hmis hemp] at h; simp at h
  · cases hl : openLoop env env.workerNodeList with
    | mk r tr2 =>
      cases r with
      | ok conns => rw [open_mismatch_ok env s conns tr2 hmis hl] at h; simp at h
      | error e2 =>
        rw [open_mismatch_error env s e2 tr2 hmis hl] at h
        simp only [Prod.mk.injEq] at h
        obtain ⟨-, -, rfl⟩ := h
        exact ⟨rfl, rfl⟩

theorem open_ok_state (env : Env) (s : XactState)
    (l : List TransactionConnection) (tr : List Event) (s' : XactState)
    (h : OpenWorkerTransactions env s = (Except.ok l, tr, s')) :
    s'.workerConnectionList = l ∧
      l.length = env.workerNodeList.length ∧
      (s.isXactCallbackRegistered = true → s'.isXactCallbackRegistered = true) ∧
      (l = [] → s'.isXactCallbackRegistered = true) := by
  by_cases hmis : env.workerNodeList.length = s.workerConnectionList.length
  · by_cases hemp : s.workerConnectionList = []
    · cases hl : openLoop env env.workerNodeList with
      | mk r tr2 =>
        cases r with
        | ok conns =>
          rw [open_populate_ok env s conns tr2 hmis hemp hl] at h
          simp only [Prod.mk.injEq, Except.ok.injEq] at h
          obtain ⟨rfl, -, rfl⟩ := h
          exact ⟨rfl, openLoop_ok_length env _ _ _ hl, fun _ => rfl, fun _ => rfl⟩
        | error e2 => rw [open_populate_error env s e2 tr2 hmis hemp hl] at h; simp at h
    · rw [open_cached env s hmis hemp] at h
      simp only [Prod.mk.injEq, Except.ok.injEq] at h
      obtain ⟨rfl, -, rfl⟩ := h
      exact ⟨rfl, hmis.symm, fun hf => hf, fun hl0 => absurd hl0 hemp⟩
  · cases hl : openLoop env env.workerNodeList with
    | mk r tr2 =>
      cases r with
      | ok conns =>
        rw [open_mismatch_ok env s conns tr2 hmis hl] at h
        simp only [Prod.mk.injEq, Except.ok.injEq] at h
        obtain ⟨rfl, -, rfl⟩ := h
        exact ⟨rfl, openLoop_ok_length env _ _ _ hl, fun _ => rfl, fun _ => rfl⟩
      | error e2 => rw [open_mismatch_error env s e2 tr2 hmis hl] at h; simp at h

/-! ### Dispatcher loop lemmas -/

theorem openLoop_trace_begin (env : Env) (ws : List WorkerNode) :
    ∀ ev ∈ (openLoop env ws).2, ∃ c, ev = Event.ExecCmd c "BEGIN" := by
  induction ws with
  | nil => simp [openLoop]
  | cons w ws ih =>
    intro ev hev
    simp only [openLoop] at hev
    cases hc : env.getOrEstablishConnection w.workerName w.workerPort with
    | none => simp [hc] at hev
    | some conn =>
      simp only [hc] at hev
      by_cases hb : env.execStatus conn "BEGIN" = true
      · simp only [if_pos hb] at hev
        cases hrec : openLoop env ws with
        | mk r tr' =>
          cases r with
          | ok rest =>
            simp only [hrec] at hev
            rcases List.mem_cons.mp hev with rfl | hev
            · exact ⟨conn, rfl⟩
            · exact ih ev (by rw [hrec]; exact hev)
          | error e =>
            simp only [hrec] at hev
            rcases List.mem_cons.mp hev with rfl | hev
            · exact ⟨conn, rfl⟩
            · exact ih ev (by rw [hrec]; exact hev)
      · simp only [if_neg hb, List.mem_singleton] at hev
        exact ⟨conn, hev⟩

/-- Every event in the trace of `OpenWorkerTransactions` is a `BEGIN`, a
`CloseConns` or a `RegisterCallback` — registry acquisition never sends the
caller's command. -/
theorem open_trace_events (env : Env) (s : XactState) :
    ∀ ev ∈ (OpenWorkerTransactions env s).2.1,
      (∃ c, ev = Event.ExecCmd c "BEGIN") ∨
      (∃ cs, ev = Event.CloseConns cs) ∨ ev = Event.RegisterCallback := by
  intro ev hev
  by_cases hmis : env.workerNodeList.length = s.workerConnectionList.length
  · by_cases hemp : s.workerConnectionList = []
    · cases hl : openLoop env env.workerNodeList with
      | mk r tr2 =>
        cases r with
        | ok conns =>
          rw [open_populate_ok env s conns tr2 hmis hemp hl] at hev
          rcases List.mem_append.mp hev with hev | hev
          · exact Or.inl (openLoop_trace_begin env _ ev (by rw [hl]; exact hev))
          · right; right
            cases hr : s.isXactCallbackRegistered with
            | false => simp [hr] at hev; exact hev
            | true => simp [hr] at hev
        | error e2 =>
          rw [open_populate_error env s e2 tr2 hmis hemp hl] at hev
          exact Or.inl (openLoop_trace_begin env _ ev (by rw [hl]; exact hev))
    · rw [open_cached env s hmis hemp] at hev; simp at hev
  · cases hl : openLoop env env.workerNodeList with
    | mk r tr2 =>
      cases r with
      | ok conns =>
        rw [open_mismatch_ok env s conns tr2 hmis hl] at hev
        rcases List.mem_cons.mp hev with rfl | hev
        · exact Or.inr (Or.inl ⟨s.workerConnectionList, rfl⟩)
        · rcases List.mem_append.mp hev with hev | hev
          · exact Or.inl (openLoop_trace_begin env _ ev (by rw [hl]; exact hev))
          · right; right
            cases hr : s.isXactCallbackRegistered with
            | false => simp [hr] at hev; exact hev
            | true => simp [hr] at hev
      | error e2 =>
        rw [open_mismatch_error env s e2 tr2 hmis hl] at hev
        rcases List.mem_cons.mp hev with rfl | hev
        · exact Or.inr (Or.inl ⟨s.workerConnectionList, rfl⟩)
        · exact Or.inl (openLoop_trace_begin env _ ev (by rw [hl]; exact hev))

theorem sendOrderedLoop_ok (env : Env) (cmd : String)
    (l : List TransactionConnection)
    (h : ∀ tc ∈ l, env.execStatus tc.connection cmd = true) :
    sendOrderedLoop env cmd l =
      (Except.ok (), l.map fun tc => Event.ExecCmd tc.connection cmd) := by
  induction l with
  | nil => rfl
  | cons tc rest ih =>
    have htc : env.execStatus tc.connection cmd = true := h tc (List.mem_cons_self ..)
    have hrest := ih fun x hx => h x (List.mem_cons_of_mem _ hx)
    simp [sendOrderedLoop, htc, hrest]

theorem sendOrderedLoop_fail (env : Env) (cmd : String)
    (l₁ l₂ : List TransactionConnection) (bad : TransactionConnection)
    (h1 : ∀ tc ∈ l₁, env.execStatus tc.connection cmd = true)
    (hbad : env.execStatus bad.connection cmd = false) :
    sendOrderedLoop env cmd (l₁ ++ bad :: l₂) =
      (Except.error (CError.metadataChangeSendFailed
          (env.connHost bad.connection) (env.connPort bad.connection)),
       (l₁ ++ [bad]).map fun tc => Event.ExecCmd tc.connection cmd) := by
  induction l₁ with
  | nil => simp [sendOrderedLoop, hbad]
  | cons tc rest ih =>
    have htc : env.execStatus tc.connection cmd = true := h1 tc (List.mem_cons_self ..)
    have hrest := ih fun x hx => h1 x (List.mem_cons_of_mem _ hx)
    simp [sendOrderedLoop, htc, hrest]

/-- C1: `SendCommandToWorkersInOrder` executes the command on the handles in
registry order and halts at the first failing handle, raising an error that
names that connection's host and port; no handle after the failing one in
registry order receives the command (the full trace appends exactly the
executions on the prefix up to and including the failing handle to the
acquisition trace, which itself only carries `BEGIN`s). -/
theorem sendOrdered_failfast (env : Env) (cmd : String) (s : XactState)
    (l₁ l₂ : List TransactionConnection) (bad : TransactionConnection)
    (tr : List Event) (s' : XactState)
    (hopen : OpenWorkerTransactions env s = (Except.ok (l₁ ++ bad :: l₂), tr, s'))
    (hok : ∀ tc ∈ l₁, env.execStatus tc.connection cmd = true)
    (hbad : env.execStatus bad.connection cmd = false)
    (hcmd : cmd ≠ "BEGIN") :
    SendCommandToWorkersInOrder env cmd s =
      (Except.error (CError.metadataChangeSendFailed
          (env.connHost bad.connection) (env.connPort bad.connection)),
       tr ++ (l₁ ++ [bad]).map (fun tc => Event.ExecCmd tc.connection cmd),
       s') ∧
    ∀ tc ∈ l₂, tc.connection ∉ (l₁ ++ [bad]).map TransactionConnection.connection →
      Event.ExecCmd tc.connection cmd ∉ (SendCommandToWorkersInOrder env cmd s).2.1 := by
  have hloop := sendOrderedLoop_fail env cmd l₁ l₂ bad hok hbad
  have hmain : SendCommandToWorkersInOrder env cmd s =
      (Except.error (CError.metadataChangeSendFailed
          (env.connHost bad.connection) (env.connPort bad.connection)),
       tr ++ (l₁ ++ [bad]).map (fun tc => Event.ExecCmd tc.connection cmd),
       s') := by
    simp [SendCommandToWorkersInOrder, hopen, hloop]
  refine ⟨hmain, ?_⟩
  intro tc htc hnc hmem
  rw [hmain] at hmem
  rcases List.mem_append.mp hmem with hmem | hmem
  · have := open_trace_events env s (Event.ExecCmd tc.connection cmd)
      (by rw [hopen]; exact hmem)
    rcases this with ⟨c, hc⟩ | ⟨cs, hc⟩ | hc
    · exact hcmd (Event.ExecCmd.inj hc).2
    · exact Event.noConfusion hc
    · exact Event.noConfusion hc
  · rcases List.mem_map.mp hmem with ⟨x, hx, hxe⟩
    exact hnc (List.mem_map.mpr ⟨x, hx, (Event.ExecCmd.inj hxe).1⟩)

/-! ### Concrete test environments -/

/-- Three workers; connections are the port numbers; `BEGIN` succeeds
everywhere; an ordinary command succeeds only on connection 9701; parallel
submission and drain succeed everywhere; one-phase commit protocol. -/
def envA : Env where
  workerNodeList := [⟨"n1", 9701⟩, ⟨"n2", 9702⟩, ⟨"n3", 9703⟩]
  getOrEstablishConnection := fun _ p => some p
  execStatus := fun c cmd => cmd == "BEGIN" || c == 9701
  sendQueryOk := fun _ _ => true
  getResultOk := fun _ _ => true
  connHost := fun c => "host" ++ toString c
  connPort := fun c => toString c
  multiShardCommitProtocol := CommitProtocol.COMMIT_PROTOCOL_1PC

/-- C1 witness: on `envA`, with the registry freshly populated on connections
9701/9702/9703, the command "SET" succeeds on 9701 and fails on 9702; the
dispatch stops there naming host9702:9702 and 9703 never sees the command. -/
theorem sendOrdered_failfast_witness :
    OpenWorkerTransactions envA ⟨[], false⟩ =
      (Except.ok ([beginHandle 9701] ++ beginHandle 9702 :: [beginHandle 9703]),
       [Event.CloseConns [], Event.ExecCmd 9701 "BEGIN", Event.ExecCmd 9702 "BEGIN",
        Event.ExecCmd 9703 "BEGIN", Event.RegisterCallback],
       ⟨[beginHandle 9701, beginHandle 9702, beginHandle 9703], true⟩) ∧
    (∀ tc ∈ [beginHandle 9701], envA.execStatus tc.connection "SET" = true) ∧
    envA.execStatus (beginHandle 9702).connection "SET" = false ∧
    "SET" ≠ "BEGIN" ∧
    (SendCommandToWorkersInOrder envA "SET" ⟨[], false⟩ =
      (Except.error (CError.metadataChangeSendFailed
          (envA.connHost (beginHandle 9702).connection)
          (envA.connPort (beginHandle 9702).connection)),
       [Event.CloseConns [], Event.ExecCmd 9701 "BEGIN", Event.ExecCmd 9702 "BEGIN",
        Event.ExecCmd 9703 "BEGIN", Event.RegisterCallback] ++
         ([beginHandle 9701] ++ [beginHandle 9702]).map
           (fun tc => Event.ExecCmd tc.connection "SET"),
       ⟨[beginHandle 9701, beginHandle 9702, beginHandle 9703], true⟩) ∧
     ∀ tc ∈ [beginHandle 9703],
       tc.connection ∉ ([beginHandle 9701] ++ [beginHandle 9702]).map
           TransactionConnection.connection →
       Event.ExecCmd tc.connection "SET" ∉
         (SendCommandToWorkersInOrder envA "SET" ⟨[], false⟩).2.1) :=
  ⟨by rfl, by decide, by decide, by decide,
   sendOrdered_failfast envA "SET" ⟨[], false⟩
     [beginHandle 9701] [beginHandle 9703] (beginHandle 9702)
     [Event.CloseConns [], Event.ExecCmd 9701 "BEGIN", Event.ExecCmd 9702 "BEGIN",
      Event.ExecCmd 9703 "BEGIN", Event.RegisterCallback]
     ⟨[beginHandle 9701, beginHandle 9702, beginHandle 9703], true⟩
     (by rfl) (by decide) (by decide) (by decide)⟩

/-- Environment `envA` with the two-phase commit protocol configured. -/
def envA2 : Env :=
  { envA with multiShardCommitProtocol := CommitProtocol.COMMIT_PROTOCOL_2PC }

/-- C2: on `PRE_COMMIT` with a non-empty registry the orchestrator calls the
external prepare helper on the whole handle list exactly when the configured
protocol is two-phase; under one-phase the handler performs no remote
operation at all (empty trace). -/
theorem precommit_prepare_iff_twophase (env : Env) (s : XactState)
    (hne : s.workerConnectionList ≠ []) :
    CompleteWorkerTransactions env XactEvent.XACT_EVENT_PRE_COMMIT s =
      ((if env.multiShardCommitProtocol = CommitProtocol.COMMIT_PROTOCOL_2PC
        then [Event.Prepare s.workerConnectionList] else []), s) ∧
    (Event.Prepare s.workerConnectionList ∈
        (CompleteWorkerTransactions env XactEvent.XACT_EVENT_PRE_COMMIT s).1 ↔
      env.multiShardCommitProtocol = CommitProtocol.COMMIT_PROTOCOL_2PC) ∧
    (env.multiShardCommitProtocol = CommitProtocol.COMMIT_PROTOCOL_1PC →
      (CompleteWorkerTransactions env XactEvent.XACT_EVENT_PRE_COMMIT s).1 = []) := by
  cases hp : env.multiShardCommitProtocol <;>
    simp [CompleteWorkerTransactions, hne, hp]

/-- C2 witness: two workers cached, two-phase configured — `PRE_COMMIT`
issues exactly one `Prepare` of the whole handle list. -/
theorem precommit_prepare_iff_twophase_witness :
    (XactState.workerConnectionList ⟨[beginHandle 9701, beginHandle 9702], true⟩ ≠ []) ∧
    (CompleteWorkerTransactions envA2 XactEvent.XACT_EVENT_PRE_COMMIT
        ⟨[beginHandle 9701, beginHandle 9702], true⟩ =
      ((if envA2.multiShardCommitProtocol = CommitProtocol.COMMIT_PROTOCOL_2PC
        then [Event.Prepare [beginHandle 9701, beginHandle 9702]] else []),
       ⟨[beginHandle 9701, beginHandle 9702], true⟩) ∧
     (Event.Prepare [beginHandle 9701, beginHandle 9702] ∈
        (CompleteWorkerTransactions envA2 XactEvent.XACT_EVENT_PRE_COMMIT
          ⟨[beginHandle 9701, beginHandle 9702], true⟩).1 ↔
       envA2.multiShardCommitProtocol = CommitProtocol.COMMIT_PROTOCOL_2PC) ∧
     (envA2.multiShardCommitProtocol = CommitProtocol.COMMIT_PROTOCOL_1PC →
       (CompleteWorkerTransactions envA2 XactEvent.XACT_EVENT_PRE_COMMIT
         ⟨[beginHandle 9701, beginHandle 9702], true⟩).1 = [])) :=
  ⟨by decide,
   precommit_prepare_iff_twophase envA2 ⟨[beginHandle 9701, beginHandle 9702], true⟩
     (by decide)⟩

/-- C3: after the callback handles `COMMIT` or `ABORT`, the registry is
empty — unconditionally, for every environment (the external commit/rollback
helpers are best-effort and return normally, so nothing can skip the reset);
`PRE_COMMIT` leaves the state, in particular the registry, untouched. -/
theorem commit_abort_empties_registry (env : Env) (s : XactState) (e : XactEvent)
    (he : e = XactEvent.XACT_EVENT_COMMIT ∨ e = XactEvent.XACT_EVENT_ABORT) :
    (CompleteWorkerTransactions env e s).2.workerConnectionList = [] ∧
    (CompleteWorkerTransactions env XactEvent.XACT_EVENT_PRE_COMMIT s).2 = s := by
  constructor
  · rcases he with rfl | rfl <;>
      by_cases hemp : s.workerConnectionList = [] <;>
      simp [CompleteWorkerTransactions, hemp]
  · by_cases hemp : s.workerConnectionList = []
    · simp [CompleteWorkerTransactions, hemp]
    · cases hp : env.multiShardCommitProtocol <;>
        simp [CompleteWorkerTransactions, hemp, hp]

/-- C3 witness: a `COMMIT` event on a cached two-handle registry empties it,
and `PRE_COMMIT` does not. -/
theorem commit_abort_empties_registry_witness :
    (XactEvent.XACT_EVENT_COMMIT = XactEvent.XACT_EVENT_COMMIT ∨
      XactEvent.XACT_EVENT_COMMIT = XactEvent.XACT_EVENT_ABORT) ∧
    ((CompleteWorkerTransactions envA XactEvent.XACT_EVENT_COMMIT
        ⟨[beginHandle 9701, beginHandle 9702], true⟩).2.workerConnectionList = [] ∧
     (CompleteWorkerTransactions envA XactEvent.XACT_EVENT_PRE_COMMIT
        ⟨[beginHandle 9701, beginHandle 9702], true⟩).2 =
       ⟨[beginHandle 9701, beginHandle 9702], true⟩) :=
  ⟨Or.inl rfl,
   commit_abort_empties_registry envA ⟨[beginHandle 9701, beginHandle 9702], true⟩
     XactEvent.XACT_EVENT_COMMIT (Or.inl rfl)⟩

/-- Shared core of the stability argument: a successful acquisition is a
fixpoint — re-acquiring under any environment with the same worker
cardinality returns the identical handle list, an empty trace and the same
state. -/
theorem open_stable_core (env₁ env₂ : Env) (s s' : XactState)
    (l : List TransactionConnection) (tr : List Event)
    (hfirst : OpenWorkerTransactions env₁ s = (Except.ok l, tr, s'))
    (hcard : env₂.workerNodeList.length = env₁.workerNodeList.length) :
    OpenWorkerTransactions env₂ s' = (Except.ok l, [], s') := by
  obtain ⟨hreg, hlen, -, hflag0⟩ := open_ok_state env₁ s l tr s' hfirst
  have hlen2 : env₂.workerNodeList.length = s'.workerConnectionList.length := by
    rw [hreg, hlen]; exact hcard
  by_cases hne : l = []
  · subst hne
    have hflag := hflag0 rfl
    have hw2 : env₂.workerNodeList = [] := by
      rw [hreg] at hlen2
      exact List.length_eq_zero.mp hlen2
    have hs' : s' = ⟨[], true⟩ := by
      cases s'
      simp_all
    subst hs'
    rw [open_populate_ok env₂ ⟨[], true⟩ [] [] (by simp [hw2]) rfl (by rw [hw2]; rfl)]
    rfl
  · have := open_cached env₂ s' hlen2 (by rw [hreg]; exact hne)
    rw [this, hreg]

/-- C4: after a successful population, any further acquisition under an
unchanged worker cardinality returns the identical handle sequence, with an
empty interaction trace — in particular no `BEGIN` is issued — and leaves
the state unchanged. -/
theorem acquire_idempotent (env₁ env₂ : Env) (s s' : XactState)
    (l : List TransactionConnection) (tr : List Event)
    (hfirst : OpenWorkerTransactions env₁ s = (Except.ok l, tr, s'))
    (hcard : env₂.workerNodeList.length = env₁.workerNodeList.length) :
    OpenWorkerTransactions env₂ s' = (Except.ok l, [], s') :=
  open_stable_core env₁ env₂ s s' l tr hfirst hcard

/-- C4 witness: a second `OpenWorkerTransactions` on `envA` after the first
successful population returns the same three handles with an empty trace. -/
theorem acquire_idempotent_witness :
    OpenWorkerTransactions envA ⟨[], false⟩ =
      (Except.ok [beginHandle 9701, beginHandle 9702, beginHandle 9703],
       [Event.CloseConns [], Event.ExecCmd 9701 "BEGIN", Event.ExecCmd 9702 "BEGIN",
        Event.ExecCmd 9703 "BEGIN", Event.RegisterCallback],
       ⟨[beginHandle 9701, beginHandle 9702, beginHandle 9703], true⟩) ∧
    envA.workerNodeList.length = envA.workerNodeList.length ∧
    OpenWorkerTransactions envA
        ⟨[beginHandle 9701, beginHandle 9702, beginHandle 9703], true⟩ =
      (Except.ok [beginHandle 9701, beginHandle 9702, beginHandle 9703], [],
       ⟨[beginHandle 9701, beginHandle 9702, beginHandle 9703], true⟩) :=
  ⟨by rfl, rfl,
   acquire_idempotent envA envA ⟨[], false⟩
     ⟨[beginHandle 9701, beginHandle 9702, beginHandle 9703], true⟩
     [beginHandle 9701, beginHandle 9702, beginHandle 9703]
     [Event.CloseConns [], Event.ExecCmd 9701 "BEGIN", Event.ExecCmd 9702 "BEGIN",
      Event.ExecCmd 9703 "BEGIN", Event.RegisterCallback]
     (by rfl) rfl⟩

/-- An error result of `OpenWorkerTransactions` always originates in the
population loop. -/
theorem open_error_loop (env : Env) (s : XactState) (e : CError)
    (tr : List Event) (s' : XactState)
    (h : OpenWorkerTransactions env s = (Except.error e, tr, s')) :
    ∃ tr2, openLoop env env.workerNodeList = (Except.error e, tr2) := by
  by_cases hmis : env.workerNodeList.length = s.workerConnectionList.length
  · by_cases hemp : s.workerConnectionList = []
    · cases hl : openLoop env env.workerNodeList with
      | mk r tr2 =>
        cases r with
        | ok conns => rw [open_populate_ok env s conns tr2 hmis hemp hl] at h; simp at h
        | error e2 =>
          rw [open_populate_error env s e2 tr2 hmis hemp hl] at h
          simp only [Prod.mk.injEq, Except.error.injEq] at h
          exact ⟨tr2, by rw [h.1]⟩
    · rw [open_cached env s hmis hemp] at h; simp at h
  · cases hl : openLoop env env.workerNodeList with
    | mk r tr2 =>
      cases r with
      | ok conns => rw [open_mismatch_ok env s conns tr2 hmis hl] at h; simp at h
      | error e2 =>
        rw [open_mismatch_error env s e2 tr2 hmis hl] at h
        simp only [Prod.mk.injEq, Except.error.injEq] at h
        exact ⟨tr2, by rw [h.1]⟩

/-- Two workers; connections are the port numbers; `BEGIN` succeeds on
connection 1 and fails on connection 2. -/
def envB : Env where
  workerNodeList := [⟨"w1", 1⟩, ⟨"w2", 2⟩]
  getOrEstablishConnection := fun _ p => some p
  execStatus := fun c _ => c == 1
  sendQueryOk := fun _ _ => true
  getResultOk := fun _ _ => true
  connHost := fun c => "w" ++ toString c
  connPort := fun c => toString c
  multiShardCommitProtocol := CommitProtocol.COMMIT_PROTOCOL_1PC

/-- C5 counterexample: on `envB`, worker w1's `BEGIN` succeeds (the handle
for connection 1 is opened — its `BEGIN` is in the trace) and worker w2's
`BEGIN` fails.  The call fails naming w2, but the registry afterwards is
empty: the handle opened for w1 is NOT registered, contradicting the claim
that earlier-opened handles of the failing call remain registered so that
transaction-abort cleanup reaches them. -/
theorem open_failure_counterexample :
    OpenWorkerTransactions envB ⟨[], false⟩ =
      (Except.error (CError.transactionStartFailed "w2" 2),
       [Event.CloseConns [], Event.ExecCmd 1 "BEGIN", Event.ExecCmd 2 "BEGIN"],
       ⟨[], false⟩) ∧
    Event.ExecCmd 1 "BEGIN" ∈ (OpenWorkerTransactions envB ⟨[], false⟩).2.1 ∧
    (OpenWorkerTransactions envB ⟨[], false⟩).2.2.workerConnectionList = [] ∧
    beginHandle 1 ∉ (OpenWorkerTransactions envB ⟨[], false⟩).2.2.workerConnectionList := by
  refine ⟨by rfl, ?_, by rfl, ?_⟩ <;> decide

/-- C5 (amended): if population of the registry fails, the call raises an
error naming the first worker whose connection is absent or whose `BEGIN`
fails (every earlier worker in topology order opened successfully), and the
registry afterwards is empty — the handles already opened for earlier
workers in that call are NOT added to the registry (they survive only in the
external connection cache), so registry-driven transaction-abort cleanup
does not reach them, and the callback registration state is unchanged. -/
theorem open_failure_names_first_failing_node (env : Env) (s : XactState)
    (e : CError) (tr : List Event) (s' : XactState)
    (h : OpenWorkerTransactions env s = (Except.error e, tr, s')) :
    (∃ ws₁ w ws₂, env.workerNodeList = ws₁ ++ w :: ws₂ ∧
       (∀ w' ∈ ws₁, workerOpens env w') ∧ ¬ workerOpens env w ∧
       (e = CError.connectionOpenFailed w.workerName w.workerPort ∨
        e = CError.transactionStartFailed w.workerName w.workerPort)) ∧
    s'.workerConnectionList = [] ∧
    s'.isXactCallbackRegistered = s.isXactCallbackRegistered := by
  obtain ⟨tr2, hloop⟩ := open_error_loop env s e tr s' h
  obtain ⟨hreg, hflag⟩ := open_error_state env s e tr s' h
  exact ⟨openLoop_error_spec env env.workerNodeList e tr2 hloop, hreg, hflag⟩

/-- C5 witness (for the amended statement), at the `envB` failure input. -/
theorem open_failure_names_first_failing_node_witness :
    OpenWorkerTransactions envB ⟨[], false⟩ =
      (Except.error (CError.transactionStartFailed "w2" 2),
       [Event.CloseConns [], Event.ExecCmd 1 "BEGIN", Event.ExecCmd 2 "BEGIN"],
       ⟨[], false⟩) ∧
    ((∃ ws₁ w ws₂, envB.workerNodeList = ws₁ ++ w :: ws₂ ∧
        (∀ w' ∈ ws₁, workerOpens envB w') ∧ ¬ workerOpens envB w ∧
        (CError.transactionStartFailed "w2" 2 =
           CError.connectionOpenFailed w.workerName w.workerPort ∨
         CError.transactionStartFailed "w2" 2 =
           CError.transactionStartFailed w.workerName w.workerPort)) ∧
     (XactState.workerConnectionList ⟨[], false⟩ : List TransactionConnection) = [] ∧
     XactState.isXactCallbackRegistered ⟨[], false⟩ =
       XactState.isXactCallbackRegistered (⟨[], false⟩ : XactState)) :=
  ⟨by rfl,
   open_failure_names_first_failing_node envB ⟨[], false⟩
     (CError.transactionStartFailed "w2" 2)
     [Event.CloseConns [], Event.ExecCmd 1 "BEGIN", Event.ExecCmd 2 "BEGIN"]
     ⟨[], false⟩ (by rfl)⟩

/-- C6: registry population is all-or-nothing with respect to reuse.  If
`OpenWorkerTransactions` fails, the cached handle set seen by later calls is
empty (never a partial population); if it succeeds with `l`, the cache is
exactly `l`, with one handle per current worker, and a later acquisition on
the resulting state under the same environment sees the identical set,
performing no remote work. -/
theorem population_all_or_nothing (env : Env) (s : XactState)
    (r : Except CError (List TransactionConnection)) (tr : List Event)
    (s' : XactState)
    (h : OpenWorkerTransactions env s = (r, tr, s')) :
    (∀ e, r = Except.error e → s'.workerConnectionList = []) ∧
    (∀ l, r = Except.ok l →
      s'.workerConnectionList = l ∧
      l.length = env.workerNodeList.length ∧
      OpenWorkerTransactions env s' = (Except.ok l, [], s')) := by
  constructor
  · rintro e rfl
    exact (open_error_state env s e tr s' h).1
  · rintro l rfl
    obtain ⟨hreg, hlen, -, -⟩ := open_ok_state env s l tr s' h
    exact ⟨hreg, hlen, open_stable_core env env s s' l tr h rfl⟩

/-- C6 witness: on `envA` the population succeeds with the three handles;
the cache equals that list and a repeated acquisition is a no-op. -/
theorem population_all_or_nothing_witness :
    OpenWorkerTransactions envA ⟨[], false⟩ =
      (Except.ok [beginHandle 9701, beginHandle 9702, beginHandle 9703],
       [Event.CloseConns [], Event.ExecCmd 9701 "BEGIN", Event.ExecCmd 9702 "BEGIN",
        Event.ExecCmd 9703 "BEGIN", Event.RegisterCallback],
       ⟨[beginHandle 9701, beginHandle 9702, beginHandle 9703], true⟩) ∧
    ((∀ e, (Except.ok [beginHandle 9701, beginHandle 9702, beginHandle 9703] :
        Except CError (List TransactionConnection)) = Except.error e →
      (XactState.workerConnectionList
        ⟨[beginHandle 9701, beginHandle 9702, beginHandle 9703], true⟩) = []) ∧
     (∀ l, (Except.ok [beginHandle 9701, beginHandle 9702, beginHandle 9703] :
        Except CError (List TransactionConnection)) = Except.ok l →
      (XactState.workerConnectionList
        ⟨[beginHandle 9701, beginHandle 9702, beginHandle 9703], true⟩) = l ∧
      l.length = envA.workerNodeList.length ∧
      OpenWorkerTransactions envA
          ⟨[beginHandle 9701, beginHandle 9702, beginHandle 9703], true⟩ =
        (Except.ok l, [],
         ⟨[beginHandle 9701, beginHandle 9702, beginHandle 9703], true⟩))) :=
  ⟨by rfl,
   population_all_or_nothing envA ⟨[], false⟩
     (Except.ok [beginHandle 9701, beginHandle 9702, beginHandle 9703])
     [Event.CloseConns [], Event.ExecCmd 9701 "BEGIN", Event.ExecCmd 9702 "BEGIN",
      Event.ExecCmd 9703 "BEGIN", Event.RegisterCallback]
     ⟨[beginHandle 9701, beginHandle 9702, beginHandle 9703], true⟩ (by rfl)⟩

/-- C7: when the current worker count differs from the cached handle count,
the first remote interaction closes every cached handle
(`CloseConnections` on the whole old list), and a successful call returns a
registry fully re-populated from the current worker list in topology order:
each returned handle is freshly built (`connectionId` 0, state `OPEN`) from
the channel the Connection Provider yields for the corresponding current
worker — no old handle object is carried over. -/
theorem cardinality_mismatch_reopens (env : Env) (s : XactState)
    (hmis : env.workerNodeList.length ≠ s.workerConnectionList.length) :
    (∃ tr', (OpenWorkerTransactions env s).2.1 =
        Event.CloseConns s.workerConnectionList :: tr') ∧
    (∀ l tr s', OpenWorkerTransactions env s = (Except.ok l, tr, s') →
      List.Forall₂ (opensTo env) env.workerNodeList l ∧
      s'.workerConnectionList = l) := by
  constructor
  · cases hl : openLoop env env.workerNodeList with
    | mk r tr2 =>
      cases r with
      | ok conns =>
        rw [open_mismatch_ok env s conns tr2 hmis hl]
        exact ⟨_, rfl⟩
      | error e2 =>
        rw [open_mismatch_error env s e2 tr2 hmis hl]
        exact ⟨_, rfl⟩
  · intro l tr s' h
    cases hl : openLoop env env.workerNodeList with
    | mk r tr2 =>
      cases r with
      | ok conns =>
        rw [open_mismatch_ok env s conns tr2 hmis hl] at h
        simp only [Prod.mk.injEq, Except.ok.injEq] at h
        obtain ⟨rfl, -, rfl⟩ := h
        exact ⟨(openLoop_ok_spec env _ _ _ hl).1, rfl⟩
      | error e2 =>
        rw [open_mismatch_error env s e2 tr2 hmis hl] at h
        simp at h

/-- C7 witness: one stale cached handle against the three current `envA`
workers — the old handle is closed and three fresh handles are opened. -/
theorem cardinality_mismatch_reopens_witness :
    envA.workerNodeList.length ≠
      (XactState.workerConnectionList ⟨[beginHandle 4444], true⟩).length ∧
    ((∃ tr', (OpenWorkerTransactions envA ⟨[beginHandle 4444], true⟩).2.1 =
        Event.CloseConns [beginHandle 4444] :: tr') ∧
     (∀ l tr s',
        OpenWorkerTransactions envA ⟨[beginHandle 4444], true⟩ = (Except.ok l, tr, s') →
        List.Forall₂ (opensTo envA) envA.workerNodeList l ∧
        s'.workerConnectionList = l)) :=
  ⟨by decide,
   cardinality_mismatch_reopens envA ⟨[beginHandle 4444], true⟩ (by decide)⟩

/-- Invariant of every reachable module state: the registry is only
non-empty after a successful population, which always registers the
callback first (`worker_transaction.c:206-212`). -/
def StateInv (s : XactState) : Prop :=
  s.workerConnectionList ≠ [] → s.isXactCallbackRegistered = true

theorem openLoop_no_register (env : Env) (ws : List WorkerNode) :
    Event.RegisterCallback ∉ (openLoop env ws).2 := by
  intro hmem
  obtain ⟨c, hc⟩ := openLoop_trace_begin env ws Event.RegisterCallback hmem
  exact Event.noConfusion hc

/-- C9: the lifecycle-callback subscription is performed at most once across
every sequence of acquisitions.  On any reachable state (`StateInv`): the
resulting state is again reachable; if the callback is already registered,
no acquisition ever emits `RegisterXactCallback` and the flag stays set; if
it is not yet registered, a successful population emits it exactly once and
sets the flag, while a failed population leaves the subscription state
untouched. -/
theorem callback_registration_idempotent (env : Env) (s : XactState)
    (r : Except CError (List TransactionConnection)) (tr : List Event)
    (s' : XactState)
    (h : OpenWorkerTransactions env s = (r, tr, s'))
    (hinv : StateInv s) :
    StateInv s' ∧
    (s.isXactCallbackRegistered = true →
      s'.isXactCallbackRegistered = true ∧ Event.RegisterCallback ∉ tr) ∧
    (s.isXactCallbackRegistered = false →
      ((∃ l, r = Except.ok l) →
        s'.isXactCallbackRegistered = true ∧ tr.count Event.RegisterCallback = 1) ∧
      ((∃ e, r = Except.error e) →
        s'.isXactCallbackRegistered = false ∧ Event.RegisterCallback ∉ tr)) := by
  by_cases hmis : env.workerNodeList.length = s.workerConnectionList.length
  · by_cases hemp : s.workerConnectionList = []
    · cases hl : openLoop env env.workerNodeList with
      | mk r2 tr2 =>
        cases r2 with
        | ok conns =>
          rw [open_populate_ok env s conns tr2 hmis hemp hl] at h
          simp only [Prod.mk.injEq] at h
          obtain ⟨rfl, rfl, rfl⟩ := h
          refine ⟨fun _ => rfl, ?_, ?_⟩
          · intro hreg
            refine ⟨rfl, ?_⟩
            intro hc
            rcases List.mem_append.mp hc with hc2 | hc2
            · exact openLoop_no_register env env.workerNodeList (by rw [hl]; exact hc2)
            · rw [hreg] at hc2
              simp at hc2
          · intro hreg
            refine ⟨fun _ => ⟨rfl, ?_⟩, ?_⟩
            · rw [hreg]
              simp only [Bool.false_eq_true, if_neg]
              rw [List.count_append]
              have h0 : tr2.count Event.RegisterCallback = 0 :=
                List.count_eq_zero.mpr
                  (fun hc => openLoop_no_register env env.workerNodeList (by rw [hl]; exact hc))
              simp [h0]
            · rintro ⟨e, he⟩
              exact Except.noConfusion he
        | error e2 =>
          rw [open_populate_error env s e2 tr2 hmis hemp hl] at h
          simp only [Prod.mk.injEq] at h
          obtain ⟨rfl, rfl, rfl⟩ := h
          refine ⟨hinv, ?_, ?_⟩
          · intro hreg
            exact ⟨hreg, fun hc =>
              openLoop_no_register env env.workerNodeList (by rw [hl]; exact hc)⟩
          · intro hreg
            refine ⟨?_, fun _ => ⟨hreg, fun hc =>
              openLoop_no_register env env.workerNodeList (by rw [hl]; exact hc)⟩⟩
            rintro ⟨l, hle⟩
            exact Except.noConfusion hle
    · rw [open_cached env s hmis hemp] at h
      simp only [Prod.mk.injEq] at h
      obtain ⟨rfl, rfl, rfl⟩ := h
      refine ⟨hinv, fun hreg => ⟨hreg, by simp⟩, ?_⟩
      intro hreg
      exact absurd (hinv hemp) (by rw [hreg]; exact Bool.false_ne_true)
  · cases hl : openLoop env env.workerNodeList with
    | mk r2 tr2 =>
      cases r2 with
      | ok conns =>
        rw [open_mismatch_ok env s conns tr2 hmis hl] at h
        simp only [Prod.mk.injEq] at h
        obtain ⟨rfl, rfl, rfl⟩ := h
        refine ⟨fun _ => rfl, ?_, ?_⟩
        · intro hreg
          refine ⟨rfl, ?_⟩
          intro hc
          rcases List.mem_cons.mp hc with hc2 | hc2
          · exact Event.noConfusion hc2
          · rcases List.mem_append.mp hc2 with hc3 | hc3
            · exact openLoop_no_register env env.workerNodeList (by rw [hl]; exact hc3)
            · rw [hreg] at hc3
              simp at hc3
        · intro hreg
          refine ⟨fun _ => ⟨rfl, ?_⟩, ?_⟩
          · rw [hreg]
            simp only [Bool.false_eq_true, if_neg, List.count_cons, List.count_append]
            have h0 : tr2.count Event.RegisterCallback = 0 :=
              List.count_eq_zero.mpr
                (fun hc => openLoop_no_register env env.workerNodeList (by rw [hl]; exact hc))
            simp [h0]
          · rintro ⟨e, he⟩
            exact Except.noConfusion he
      | error e2 =>
        rw [open_mismatch_error env s e2 tr2 hmis hl] at h
        simp only [Prod.mk.injEq] at h
        obtain ⟨rfl, rfl, rfl⟩ := h
        have hnr : Event.RegisterCallback ∉
            Event.CloseConns s.workerConnectionList :: tr2 := by
          simp only [List.mem_cons]
          rintro (hc | hc)
          · exact Event.noConfusion hc
          · exact openLoop_no_register env env.workerNodeList (by rw [hl]; exact hc)
        refine ⟨fun hc => absurd rfl hc, fun hreg => ⟨hreg, hnr⟩, ?_⟩
        intro hreg
        refine ⟨?_, fun _ => ⟨hreg, hnr⟩⟩
        rintro ⟨l, hle⟩
        exact Except.noConfusion hle

/-- C9 witness: first population on `envA` from the unregistered empty state
emits exactly one `RegisterXactCallback` and sets the flag. -/
theorem callback_registration_idempotent_witness :
    OpenWorkerTransactions envA ⟨[], false⟩ =
      (Except.ok [beginHandle 9701, beginHandle 9702, beginHandle 9703],
       [Event.CloseConns [], Event.ExecCmd 9701 "BEGIN", Event.ExecCmd 9702 "BEGIN",
        Event.ExecCmd 9703 "BEGIN", Event.RegisterCallback],
       ⟨[beginHandle 9701, beginHandle 9702, beginHandle 9703], true⟩) ∧
    StateInv ⟨[], false⟩ ∧
    (StateInv ⟨[beginHandle 9701, beginHandle 9702, beginHandle 9703], true⟩ ∧
     (XactState.isXactCallbackRegistered ⟨[], false⟩ = true →
       XactState.isXactCallbackRegistered
           ⟨[beginHandle 9701, beginHandle 9702, beginHandle 9703], true⟩ = true ∧
       Event.RegisterCallback ∉
         [Event.CloseConns [], Event.ExecCmd 9701 "BEGIN", Event.ExecCmd 9702 "BEGIN",
          Event.ExecCmd 9703 "BEGIN", Event.RegisterCallback]) ∧
     (XactState.isXactCallbackRegistered ⟨[], false⟩ = false →
       ((∃ l, (Except.ok [beginHandle 9701, beginHandle 9702, beginHandle 9703] :
           Except CError (List TransactionConnection)) = Except.ok l) →
         XactState.isXactCallbackRegistered
             ⟨[beginHandle 9701, beginHandle 9702, beginHandle 9703], true⟩ = true ∧
         List.count Event.RegisterCallback
           [Event.CloseConns [], Event.ExecCmd 9701 "BEGIN", Event.ExecCmd 9702 "BEGIN",
            Event.ExecCmd 9703 "BEGIN", Event.RegisterCallback] = 1) ∧
       ((∃ e, (Except.ok [beginHandle 9701, beginHandle 9702, beginHandle 9703] :
           Except CError (List TransactionConnection)) = Except.error e) →
         XactState.isXactCallbackRegistered
             ⟨[beginHandle 9701, beginHandle 9702, beginHandle 9703], true⟩ = false ∧
         Event.RegisterCallback ∉
           [Event.CloseConns [], Event.ExecCmd 9701 "BEGIN", Event.ExecCmd 9702 "BEGIN",
            Event.ExecCmd 9703 "BEGIN", Event.RegisterCallback]))) :=
  ⟨by rfl, fun h => absurd rfl h,
   callback_registration_idempotent envA ⟨[], false⟩
     (Except.ok [beginHandle 9701, beginHandle 9702, beginHandle 9703])
     [Event.CloseConns [], Event.ExecCmd 9701 "BEGIN", Event.ExecCmd 9702 "BEGIN",
      Event.ExecCmd 9703 "BEGIN", Event.RegisterCallback]
     ⟨[beginHandle 9701, beginHandle 9702, beginHandle 9703], true⟩
     (by rfl) (fun h => absurd rfl h)⟩

/-! ### Parallel dispatch lemmas -/

theorem submitLoop_ok (env : Env) (cmd : String)
    (l : List TransactionConnection)
    (h : ∀ tc ∈ l, env.sendQueryOk tc.connection cmd = true) :
    submitLoop env cmd l =
      (Except.ok (), l.map fun tc => Event.SendQuery tc.connection cmd) := by
  induction l with
  | nil => rfl
  | cons tc rest ih =>
    have htc : env.sendQueryOk tc.connection cmd = true := h tc (List.mem_cons_self ..)
    have hrest := ih fun x hx => h x (List.mem_cons_of_mem _ hx)
    simp [submitLoop, htc, hrest]

theorem submitLoop_fail (env : Env) (cmd : String)
    (l₁ l₂ : List TransactionConnection) (bad : TransactionConnection)
    (h1 : ∀ tc ∈ l₁, env.sendQueryOk tc.connection cmd = true)
    (hbad : env.sendQueryOk bad.connection cmd = false) :
    submitLoop env cmd (l₁ ++ bad :: l₂) =
      (Except.error (CError.metadataChangeSendFailed
          (env.connHost bad.connection) (env.connPort bad.connection)),
       (l₁ ++ [bad]).map fun tc => Event.SendQuery tc.connection cmd) := by
  induction l₁ with
  | nil => simp [submitLoop, hbad]
  | cons tc rest ih =>
    have htc : env.sendQueryOk tc.connection cmd = true := h1 tc (List.mem_cons_self ..)
    have hrest := ih fun x hx => h1 x (List.mem_cons_of_mem _ hx)
    simp [submitLoop, htc, hrest]

theorem drainLoop_events (env : Env) (cmd : String)
    (l : List TransactionConnection) :
    ∀ ev ∈ (drainLoop env cmd l).2, ∃ c, ev = Event.GetResult c := by
  induction l with
  | nil => simp [drainLoop]
  | cons tc rest ih =>
    intro ev hev
    simp only [drainLoop] at hev
    by_cases hg : env.getResultOk tc.connection cmd = true
    · simp only [if_pos hg] at hev
      cases hrec : drainLoop env cmd rest with
      | mk r tr =>
        simp only [hrec] at hev
        rcases List.mem_cons.mp hev with rfl | hev2
        · exact ⟨tc.connection, rfl⟩
        · rcases List.mem_cons.mp hev2 with rfl | hev3
          · exact ⟨tc.connection, rfl⟩
          · exact ih ev (by rw [hrec]; exact hev3)
    · simp only [if_neg hg, List.mem_singleton] at hev
      exact ⟨tc.connection, hev⟩

theorem drainLoop_all_ok (env : Env) (cmd : String)
    (l : List TransactionConnection)
    (h : ∀ tc ∈ l, env.getResultOk tc.connection cmd = true) :
    drainLoop env cmd l =
      (Except.ok (),
       l.flatMap fun tc =>
         [Event.GetResult tc.connection, Event.GetResult tc.connection]) := by
  induction l with
  | nil => rfl
  | cons tc rest ih =>
    have htc : env.getResultOk tc.connection cmd = true := h tc (List.mem_cons_self ..)
    have hrest := ih fun x hx => h x (List.mem_cons_of_mem _ hx)
    simp [drainLoop, htc, hrest]

theorem drainLoop_fail (env : Env) (cmd : String)
    (l₁ l₂ : List TransactionConnection) (bad : TransactionConnection)
    (h1 : ∀ tc ∈ l₁, env.getResultOk tc.connection cmd = true)
    (hbad : env.getResultOk bad.connection cmd = false) :
    drainLoop env cmd (l₁ ++ bad :: l₂) =
      (Except.error (CError.metadataChangeApplyFailed
          (env.connHost bad.connection) (env.connPort bad.connection)),
       (l₁.flatMap fun tc =>
         [Event.GetResult tc.connection, Event.GetResult tc.connection]) ++
         [Event.GetResult bad.connection]) := by
  induction l₁ with
  | nil => simp [drainLoop, hbad]
  | cons tc rest ih =>
    have htc : env.getResultOk tc.connection cmd = true := h1 tc (List.mem_cons_self ..)
    have hrest := ih fun x hx => h1 x (List.mem_cons_of_mem _ hx)
    simp [drainLoop, htc, hrest]

/-- C8: in `SendCommandToWorkersInParallel` the command is submitted to
every handle in registry order before any result is drained, results are
drained in the submission order, and a submission failure raises the error
immediately without any drain.  Concretely: when every submission succeeds,
the dispatch trace is the submissions in registry order followed by the
drain trace, whose events are all `PQgetResult`s and follow the same handle
order (two per handle up to the first failing drain); when some submission
fails first, the call errors naming that connection's host and port and the
trace contains no `PQgetResult` at all. -/
theorem sendParallel_submit_then_drain (env : Env) (cmd : String) (s : XactState)
    (l : List TransactionConnection) (tr : List Event) (s' : XactState)
    (hopen : OpenWorkerTransactions env s = (Except.ok l, tr, s')) :
    ((∀ tc ∈ l, env.sendQueryOk tc.connection cmd = true) →
      SendCommandToWorkersInParallel env cmd s =
        ((drainLoop env cmd l).1,
         tr ++ (l.map fun tc => Event.SendQuery tc.connection cmd) ++
           (drainLoop env cmd l).2,
         s') ∧
      (∀ ev ∈ (drainLoop env cmd l).2, ∃ c, ev = Event.GetResult c) ∧
      ((∀ tc ∈ l, env.getResultOk tc.connection cmd = true) →
        (drainLoop env cmd l).2 =
          l.flatMap fun tc =>
            [Event.GetResult tc.connection, Event.GetResult tc.connection]) ∧
      (∀ d₁ d₂ badd, l = d₁ ++ badd :: d₂ →
        (∀ tc ∈ d₁, env.getResultOk tc.connection cmd = true) →
        env.getResultOk badd.connection cmd = false →
        drainLoop env cmd l =
          (Except.error (CError.metadataChangeApplyFailed
              (env.connHost badd.connection) (env.connPort badd.connection)),
           (d₁.flatMap fun tc =>
             [Event.GetResult tc.connection, Event.GetResult tc.connection]) ++
             [Event.GetResult badd.connection]))) ∧
    (∀ l₁ l₂ bad, l = l₁ ++ bad :: l₂ →
      (∀ tc ∈ l₁, env.sendQueryOk tc.connection cmd = true) →
      env.sendQueryOk bad.connection cmd = false →
      SendCommandToWorkersInParallel env cmd s =
        (Except.error (CError.metadataChangeSendFailed
            (env.connHost bad.connection) (env.connPort bad.connection)),
         tr ++ ((l₁ ++ [bad]).map fun tc => Event.SendQuery tc.connection cmd),
         s') ∧
      ∀ c, Event.GetResult c ∉ (SendCommandToWorkersInParallel env cmd s).2.1) := by
  constructor
  · intro hsub
    have hs := submitLoop_ok env cmd l hsub
    refine ⟨?_, drainLoop_events env cmd l, ?_, ?_⟩
    · cases hd : drainLoop env cmd l with
      | mk rd trd =>
        simp [SendCommandToWorkersInParallel, hopen, hs, hd]
    · intro hall
      rw [drainLoop_all_ok env cmd l hall]
    · intro d₁ d₂ badd hld hall hbadd
      rw [hld]
      exact drainLoop_fail env cmd d₁ d₂ badd hall hbadd
  · intro l₁ l₂ bad hl hsub hbad
    subst hl
    have hs := submitLoop_fail env cmd l₁ l₂ bad hsub hbad
    have hmain : SendCommandToWorkersInParallel env cmd s =
        (Except.error (CError.metadataChangeSendFailed
            (env.connHost bad.connection) (env.connPort bad.connection)),
         tr ++ ((l₁ ++ [bad]).map fun tc => Event.SendQuery tc.connection cmd),
         s') := by
      simp [SendCommandToWorkersInParallel, hopen, hs]
    refine ⟨hmain, ?_⟩
    intro c hc
    rw [hmain] at hc
    rcases List.mem_append.mp hc with hc2 | hc2
    · rcases open_trace_events env s (Event.GetResult c)
        (by rw [hopen]; exact hc2) with ⟨c2, he⟩ | ⟨cs, he⟩ | he
      · exact Event.noConfusion he
      · exact Event.noConfusion he
      · exact Event.noConfusion he
    · rcases List.mem_map.mp hc2 with ⟨x, -, hxe⟩
      exact Event.noConfusion hxe

/-- C8 witness: on `envA` all three submissions succeed, so the dispatch is
the three `PQsendQuery`s in registry order followed by the drain phase. -/
theorem sendParallel_submit_then_drain_witness :
    OpenWorkerTransactions envA ⟨[], false⟩ =
      (Except.ok [beginHandle 9701, beginHandle 9702, beginHandle 9703],
       [Event.CloseConns [], Event.ExecCmd 9701 "BEGIN", Event.ExecCmd 9702 "BEGIN",
        Event.ExecCmd 9703 "BEGIN", Event.RegisterCallback],
       ⟨[beginHandle 9701, beginHandle 9702, beginHandle 9703], true⟩) ∧
    (∀ tc ∈ [beginHandle 9701, beginHandle 9702, beginHandle 9703],
      envA.sendQueryOk tc.connection "SET" = true) ∧
    SendCommandToWorkersInParallel envA "SET" ⟨[], false⟩ =
      ((drainLoop envA "SET" [beginHandle 9701, beginHandle 9702, beginHandle 9703]).1,
       [Event.CloseConns [], Event.ExecCmd 9701 "BEGIN", Event.ExecCmd 9702 "BEGIN",
        Event.ExecCmd 9703 "BEGIN", Event.RegisterCallback] ++
         ([beginHandle 9701, beginHandle 9702, beginHandle 9703].map
           fun tc => Event.SendQuery tc.connection "SET") ++
         (drainLoop envA "SET" [beginHandle 9701, beginHandle 9702, beginHandle 9703]).2,
       ⟨[beginHandle 9701, beginHandle 9702, beginHandle 9703], true⟩) :=
  ⟨by rfl, by decide,
   ((sendParallel_submit_then_drain envA "SET" ⟨[], false⟩
       [beginHandle 9701, beginHandle 9702, beginHandle 9703]
       [Event.CloseConns [], Event.ExecCmd 9701 "BEGIN", Event.ExecCmd 9702 "BEGIN",
        Event.ExecCmd 9703 "BEGIN", Event.RegisterCallback]
       ⟨[beginHandle 9701, beginHandle 9702, beginHandle 9703], true⟩
       (by rfl)).1 (by decide)).1⟩

/-- Environment `envA` with an empty worker list (empty topology). -/
def envE : Env := { envA with workerNodeList := [] }

/-- C10: with an empty worker list and an empty registry, both dispatchers
succeed; their only side effect is registering the lifecycle callback (once,
if not yet registered) — no remote command, submission or drain is issued —
the registry stays empty, and every subsequent lifecycle event on the
resulting state is a complete no-op. -/
theorem empty_topology_noop (env : Env) (cmd : String) (s : XactState)
    (hw : env.workerNodeList = []) (hreg : s.workerConnectionList = []) :
    SendCommandToWorkersInOrder env cmd s =
      (Except.ok (),
       (if s.isXactCallbackRegistered then [] else [Event.RegisterCallback]),
       ⟨[], true⟩) ∧
    SendCommandToWorkersInParallel env cmd s =
      (Except.ok (),
       (if s.isXactCallbackRegistered then [] else [Event.RegisterCallback]),
       ⟨[], true⟩) ∧
    (∀ env2 e, CompleteWorkerTransactions env2 e ⟨[], true⟩ = ([], ⟨[], true⟩)) := by
  have hopen := open_populate_ok env s [] [] (by simp [hw, hreg]) hreg (by rw [hw]; rfl)
  refine ⟨?_, ?_, ?_⟩
  · simp [SendCommandToWorkersInOrder, hopen, sendOrderedLoop]
  · simp [SendCommandToWorkersInParallel, hopen, submitLoop, drainLoop]
  · intro env2 e
    simp [CompleteWorkerTransactions]

/-- C10 witness: `envE` (no workers), empty unregistered state. -/
theorem empty_topology_noop_witness :
    envE.workerNodeList = [] ∧
    (XactState.workerConnectionList ⟨[], false⟩ : List TransactionConnection) = [] ∧
    (SendCommandToWorkersInOrder envE "SET" ⟨[], false⟩ =
      (Except.ok (),
       (if XactState.isXactCallbackRegistered ⟨[], false⟩ then []
        else [Event.RegisterCallback]),
       ⟨[], true⟩) ∧
     SendCommandToWorkersInParallel envE "SET" ⟨[], false⟩ =
      (Except.ok (),
       (if XactState.isXactCallbackRegistered ⟨[], false⟩ then []
        else [Event.RegisterCallback]),
       ⟨[], true⟩) ∧
     (∀ env2 e, CompleteWorkerTransactions env2 e ⟨[], true⟩ = ([], ⟨[], true⟩))) :=
  ⟨rfl, rfl, empty_topology_noop envE "SET" ⟨[], false⟩ rfl rfl⟩

end WorkerTransaction
